import Mathlib

/-!
# nntp-proxy: a shallow embedding of the session engine

The development follows `src/nntp-proxy.go` and `src/pool/channel.go`.

* Go strings are Lean strings; the library functions the program calls
  (`strings.Split`, `strings.SplitN`, `strconv.Atoi`, `strconv.Itoa`, the
  `%s` verb of `fmt`) are embedded as executable functions.
* Go `int` / `int64` values are integers, wrapped into the 64-bit range by `goInt`
  at every arithmetic site of the source.
* The durable store, the lockout cache, the upstream pool and the client
  connection are explicit components of a `World`; every call the program
  makes on them is also appended to `World.trace`.
* A Go run-time panic (index out of range) and a channel operation that can
  never proceed are results of type `Halt`.
-/

namespace NntpProxy

/-! ## Go library primitives -/

/-- Wrap an integer into the range of a Go `int` on a 64-bit platform (also `int64`). -/
def goInt (x : Int) : Int := (x + 2 ^ 63) % 2 ^ 64 - 2 ^ 63

/-- Worker of `strings.Split(s, " ")`: `cur` is the reversed current field. -/
def splitAux : List Char → List Char → List (List Char)
  | [], cur => [cur.reverse]
  | c :: cs, cur => if c = ' ' then cur.reverse :: splitAux cs [] else splitAux cs (c :: cur)

/-- The Go call `strings.Split(s, " ")`. -/
def Split (s : String) : List String := (splitAux s.data []).map String.mk

/-- Worker of `strings.SplitN(s, " ", n)`: at most `n` fields, the last one unsplit. -/
def splitNAux : Nat → List Char → List Char → List (List Char)
  | 0, _, _ => []
  | 1, cs, cur => [cur.reverse ++ cs]
  | _ + 2, [], cur => [cur.reverse]
  | n + 2, c :: cs, cur =>
    if c = ' ' then cur.reverse :: splitNAux (n + 1) cs [] else splitNAux (n + 2) cs (c :: cur)

/-- The Go call `strings.SplitN(s, " ", n)` for `n ≥ 0`. -/
def SplitN (s : String) (n : Nat) : List String := (splitNAux n s.data []).map String.mk

/-- Value of a decimal digit, `none` for any other character. -/
def digitVal (c : Char) : Option Nat :=
  if '0' ≤ c ∧ c ≤ '9' then some (c.toNat - '0'.toNat) else none

/-- Value of a non-empty run of decimal digits read left to right from `acc`. -/
def parseDigits : List Char → Nat → Option Nat
  | [], acc => some acc
  | c :: cs, acc =>
    match digitVal c with
    | some d => parseDigits cs (acc * 10 + d)
    | none => none

/-- Result of `strconv.ParseInt` on sign and magnitude: clamped on range error. -/
def clampInt64 (neg : Bool) (v : Nat) : Int :=
  if neg then (if v > 2 ^ 63 then -(2 ^ 63) else -(v : Int))
  else (if v ≥ 2 ^ 63 then 2 ^ 63 - 1 else (v : Int))

/-- Value returned by `strconv.Atoi` on a character list (the error is dropped, as at
the call site `i, _ = strconv.Atoi(val)`): `0` on a syntax error, the clamped value on
a range error. -/
def atoiChars : List Char → Int
  | [] => 0
  | c :: cs =>
    if c = '-' ∨ c = '+' then
      match cs with
      | [] => 0
      | _ :: _ =>
        match parseDigits cs 0 with
        | some v => clampInt64 (c = '-') v
        | none => 0
    else
      match parseDigits (c :: cs) 0 with
      | some v => clampInt64 false v
      | none => 0

/-- The Go call `strconv.Atoi(s)` with its error discarded. -/
def Atoi (s : String) : Int := atoiChars s.data

/-- Decimal digits of `n`, most significant first, prepended to `acc`; `fuel` bounds the
number of digits. -/
def digitsAux : Nat → Nat → List Char → List Char
  | 0, _, acc => acc
  | fuel + 1, n, acc =>
    let acc1 := Char.ofNat ('0'.toNat + n % 10) :: acc
    if n / 10 = 0 then acc1 else digitsAux fuel (n / 10) acc1

/-- Decimal representation of a natural number. -/
def natDigits (n : Nat) : List Char := digitsAux (n + 1) n []

/-- The Go call `strconv.Itoa(i)`. -/
def Itoa (i : Int) : String :=
  if i < 0 then String.mk ('-' :: natDigits i.natAbs) else String.mk (natDigits i.natAbs)

/-- An operand handed to a `%s` verb: the program passes strings and, once, an `int`. -/
inductive Arg where
  | str (s : String)
  | int (i : Int)
  deriving DecidableEq, Repr

/-- What `fmt` prints for one `%s` verb: a string verbatim; an integer operand is a
wrong-type operand and is printed as `%!s(int=N)`. -/
def fmtS : Arg → String
  | .str s => s
  | .int i => "%!s(int=" ++ Itoa i ++ ")"

/-- ASCII lower-casing, the restriction of `strings.ToLower` to ASCII input. -/
def asciiLower (s : String) : String := String.mk (s.data.map Char.toLower)

/-! ## Data model (`src/nntp-proxy.go`, lines 611-628) -/

/-- Row of `NewsUser`; also the in-memory snapshot `session.User`. Times are integers on
an arbitrary linear scale. -/
structure User where
  Id : Int
  UserName : String
  Password : String
  MaxConn : Int
  Allowance : Int
  EndDate : Int
  AllowanceUsed : Int
  Period : Int
  ConnUsed : Int
  deriving DecidableEq, Repr

/-- Row of `NewsSession`. -/
structure Session where
  Id : Int
  UserId : Int
  Bytes : Int
  ConnTime : Int
  deriving DecidableEq, Repr

/-- The zero value `User{}`. -/
def User.zero : User := ⟨0, "", "", 0, 0, 0, 0, 0, 0⟩

/-- The zero value `Session{}`. -/
def Session.zero : Session := ⟨0, 0, 0, 0⟩

/-- The durable store: the two tables and the next auto-increment session id. Every
statement succeeds; a `SELECT` fails only when no row matches. -/
structure DB where
  users : List User
  sessions : List Session
  nextSessionId : Int
  deriving DecidableEq, Repr

/-- The lockout cache: key, value and time-to-live in seconds, newest entry first. -/
abbrev Cache := List (String × String × Nat)

/-- The call `cache.Get(key)`: `none` stands for the error result (key absent). -/
def cacheLookup (c : Cache) (key : String) : Option String :=
  (c.find? (fun e => e.1 = key)).map (fun e => e.2.1)

/-- The call `cache.Set(key, val, ttl)`. -/
def cacheStore (c : Cache) (key val : String) (ttl : Nat) : Cache :=
  (key, val, ttl) :: c.filter (fun e => e.1 ≠ key)

/-- Seconds in `time.Minute`. -/
def minute : Nat := 60

/-! ## The upstream pool (`src/pool/channel.go`) -/

/-- State of a `channelPool`: `conns` is the content of the buffered channel of ready
connections (capacity `max`), `createsem` the number of tokens in the creation
semaphore channel (capacity `max`). A connection is named by a number. -/
structure channelPool where
  conns : List Nat
  max : Nat
  current : Nat
  createsem : Nat
  deriving DecidableEq, Repr

/-- Lines 33-57. `made` lists the outcomes of the successive `factory()` calls
(`none` is an error). The result is `none` when the constructor returns an error. -/
def NewChannelPool (initialCap maxCap : Int) (made : List (Option Nat)) : Option channelPool :=
  if initialCap < 0 ∨ maxCap ≤ 0 ∨ initialCap > maxCap then none
  else
    match (made.take initialCap.toNat).allSome with
    | some cs =>
      if cs.length = initialCap.toNat then
        some ⟨cs, maxCap.toNat, initialCap.toNat, 0⟩
      else none
    | none => none

/-- Lines 62-109, run with no other goroutine interleaved. `factory` is the outcome of
`c.factory()` should it be called. Outer `none`: neither channel operation of the inner
`select` can proceed and the call blocks. The queue never holds a nil connection, so the
`conn == nil` branches are not reached. -/
def channelPool.Get (c : channelPool) (factory : Option Nat) :
    Option (channelPool × Option Nat) :=
  match c.conns with
  | conn :: rest => some ({ c with conns := rest }, some conn)
  | [] =>
    if c.createsem < c.max then
      match factory with
      | some conn => some ({ c with createsem := c.createsem + 1 }, some conn)
      | none => some ({ c with createsem := c.createsem + 1 - 1 }, none)
    else none

/-- Lines 111-127. `none`: the receive from `createsem` blocks (no token to take). -/
def channelPool.Return (c : channelPool) (conn : Option Nat) : Option channelPool :=
  match conn with
  | none => if 0 < c.createsem then some { c with createsem := c.createsem - 1 } else none
  | some x =>
    if c.conns.length < c.max then some { c with conns := c.conns ++ [x] } else some c

/-! ## Effects -/

/-- Calls the session code makes on its collaborators, in program order. -/
inductive Event where
  | printfLine (line : String)
  | close
  | dotCopy (bytes : Nat)
  | dbGetUserByName (name : String)
  | dbGetUserById (id : Int)
  | dbInsertSession (userid : Int)
  | dbUpdateConnUsed (id val : Int)
  | dbAddSessionBytes (id bytes : Int)
  | dbAddAllowanceUsed (id bytes : Int)
  | dbResetAllowance (username : String)
  | cacheGet (key : String)
  | cacheSet (key val : String) (ttl : Nat)
  | poolGet
  | poolReturn (conn : Option Nat)
  | upstreamPrintfLine (conn : Nat) (format : String)
  | upstreamReadCodeLine (conn : Nat)
  | upstreamClose (conn : Nat)
  deriving DecidableEq, Repr

/-- Everything outside the session record. `input` holds the client lines not yet read,
`closed` whether the client connection has been closed, `now` the value of `time.Now()`. -/
structure World where
  db : DB
  cache : Cache
  pool : channelPool
  now : Int
  input : List String
  closed : Bool
  trace : List Event
  deriving DecidableEq, Repr

/-- The fields of `session` the handlers use (lines 36-45). -/
structure session where
  command : String
  User : User
  Session : Session
  Bytes : Int
  RequestsSinceUpdaate : Int
  deriving DecidableEq, Repr

/-- Parts of the program text that live outside `src/`: `strings.ToLower`, the configured
allow-list `cfg.Frontend.FrontendAllowedCommands`, and the SQL function
`DATE_ADD(enddate, INTERVAL period MONTH)`. -/
structure Env where
  ToLower : String → String
  FrontendAllowedCommands : List String
  dateAdd : Int → Int → Int

/-- Ways a handler fails to return: a Go run-time panic, a channel operation that blocks
for ever, or the end of the scripted upstream behaviour. -/
inductive Halt where
  | panic (msg : String)
  | blocked
  | exhausted
  deriving DecidableEq, Repr

/-- What the upstream does when `ReadCodeLine` reads from it. -/
inductive UpstreamRead where
  | eof
  | failed
  | line (l : String)
  deriving DecidableEq, Repr

/-- Scripted behaviour of the pool factory and the upstream for one pass through
`handleRequests`. -/
structure Attempt where
  factory : Option Nat
  writeOk : Bool
  read : UpstreamRead
  body : Nat
  deriving DecidableEq, Repr

/-- Error classes of `ReadCodeLine` as the caller tells them apart. -/
inductive ReadErr where
  | none
  | eof
  | other
  deriving DecidableEq, Repr

/-- Record one call. -/
def World.emit (w : World) (e : Event) : World := { w with trace := w.trace ++ [e] }

/-- The call `s.UserConnection.PrintfLine(...)` with the formatted line. -/
def PrintfLine (w : World) (line : String) : World := w.emit (.printfLine line)

/-- The call `s.UserConnection.Close()`. -/
def Close (w : World) : World := { w.emit .close with closed := true }

/-- The call `ReadLine()` on the client connection; at the call site in `handleAuth` the
error is dropped and the line is empty. -/
def ReadLine (w : World) : String × World :=
  if w.closed then ("", w)
  else
    match w.input with
    | [] => ("", w)
    | l :: rest => (l, { w with input := rest })

/-- The lines that reach the client: `PrintfLine` calls made before the first `Close`. -/
def delivered : List Event → List String
  | [] => []
  | .close :: _ => []
  | .printfLine l :: es => l :: delivered es
  | _ :: es => delivered es

/-- Go slice indexing `xs[i]`, which panics out of range. -/
def index (xs : List String) (i : Nat) : Except Halt String :=
  match xs.get? i with
  | some x => .ok x
  | none => .error (.panic "index out of range")

/-- The call `textproto.Conn.ReadCodeLine(220)` on what the upstream sent: code, message
and error class. -/
def ReadCodeLine220 : UpstreamRead → Int × String × ReadErr
  | .eof => (0, "", .eof)
  | .failed => (0, "", .other)
  | .line l =>
    let cs := l.data
    if cs.length < 4 ∨ (cs.get? 3 ≠ some ' ' ∧ cs.get? 3 ≠ some '-') then (0, "", .other)
    else
      let code := atoiChars (cs.take 3)
      if code < 100 then (code, "", .other)
      else
        let message := String.mk (cs.drop 4)
        if code ≠ 220 then (code, message, .other)
        else if cs.get? 3 = some '-' then (code, message, .other)
        else (code, message, .none)

/-! ## Store and cache helpers of the session (`src/nntp-proxy.go`) -/

/-- Lines 58-65. -/
def isCommandAllowed (env : Env) (command : String) : Bool :=
  env.FrontendAllowedCommands.any (fun elem => env.ToLower elem = env.ToLower command)

/-- Lines 323-334. -/
def checkCache (w : World) (user key value : String) : Bool × World :=
  let hit : Bool :=
    match cacheLookup w.cache (user ++ ":" ++ key) with
    | none => false
    | some val => val = value
  (hit, w.emit (.cacheGet (user ++ ":" ++ key)))

/-- Lines 336-339: the error is dropped and the value is then the empty string. -/
def getCache (w : World) (user key : String) : String × World :=
  ((cacheLookup w.cache (user ++ ":" ++ key)).getD "", w.emit (.cacheGet (user ++ ":" ++ key)))

/-- Lines 341-346. -/
def enterCache (w : World) (user key val : String) (expire : Nat) : World :=
  { w.emit (.cacheSet (user ++ ":" ++ key) val expire) with
    cache := cacheStore w.cache (user ++ ":" ++ key) val expire }

/-- Lines 292-313. -/
def handleAuthorization (s : session) (w : World) (user password : String) :
    Bool × session × World :=
  let w1 := w.emit (.dbGetUserByName user)
  match w.db.users.find? (fun u => u.UserName = user) with
  | some u =>
    if u.Password = password then
      let id := w1.db.nextSessionId
      let w2 := { w1.emit (.dbInsertSession u.Id) with
        db := { w1.db with
          sessions := w1.db.sessions ++ [⟨id, u.Id, 0, w1.now⟩]
          nextSessionId := id + 1 } }
      (true, { s with User := u, Session := { s.Session with Id := goInt id } }, w2)
    else (false, s, w1)
  | none => (false, s, w1)

/-- Lines 348-356. -/
def getUser (s : session) (w : World) : session × World :=
  let w1 := w.emit (.dbGetUserById s.User.Id)
  match w.db.users.find? (fun u => u.Id = s.User.Id) with
  | some u => ({ s with User := u }, w1)
  | none => (s, w1)

/-- Lines 424-431, on the snapshot `s.User`. -/
def resetAllowance (env : Env) (s : session) (w : World) : session × World :=
  let w1 := { w.emit (.dbResetAllowance s.User.UserName) with
    db := { w.db with
      users := w.db.users.map (fun (u : User) =>
        if u.UserName = s.User.UserName then
          { u with AllowanceUsed := 0, EndDate := env.dateAdd u.EndDate u.Period }
        else u) } }
  ({ s with User := { s.User with AllowanceUsed := 0 } }, w1)

/-- Lines 433-444, on the snapshot `s.User`. -/
def updateConnUsed (s : session) (w : World) (val : Int) : session × World :=
  let w1 := { w.emit (.dbUpdateConnUsed s.User.Id val) with
    db := { w.db with
      users := w.db.users.map (fun (u : User) =>
        if u.Id = s.User.Id then { u with ConnUsed := u.ConnUsed + val } else u) } }
  ({ s with User := { s.User with ConnUsed := goInt (s.User.ConnUsed + val) } }, w1)

/-- Lines 446-468. -/
def updateSession (s : session) (w : World) : session × World :=
  let bytes := s.Bytes
  let w1 := { w.emit (.dbAddSessionBytes s.Session.Id bytes) with
    db := { w.db with
      sessions := w.db.sessions.map (fun (r : Session) =>
        if r.Id = s.Session.Id then { r with Bytes := r.Bytes + bytes } else r) } }
  let w2 := { w1.emit (.dbAddAllowanceUsed s.User.Id bytes) with
    db := { w1.db with
      users := w1.db.users.map (fun (u : User) =>
        if u.Id = s.User.Id then { u with AllowanceUsed := u.AllowanceUsed + bytes } else u) } }
  let r := getUser s w2
  ({ r.1 with Bytes := 0 }, r.2)

/-- Lines 470-473. -/
def closeSession (s : session) (w : World) : session × World :=
  let r := updateConnUsed s w (-1)
  updateSession r.1 r.2

/-! ## Authentication (`handleAuth`, lines 358-422) -/

/-- Lines 409-420: the failed-authentication branch for the user name `user`. -/
def authFailed (w : World) (user : String) : World :=
  let w1 := PrintfLine w "502 AUTH FAILED!"
  let r := getCache w1 user "authfailed"
  let i := Atoi r.1
  let w2 :=
    if goInt (i + 1) > 100 then
      enterCache (enterCache r.2 user "blocked" "true" minute) user "authfailed" (Itoa 0) minute
    else
      enterCache r.2 user "authfailed" (Itoa (goInt (i + 1))) minute
  Close w2

/-- Lines 393-407: the branch taken when `handleAuthorization` returned true. -/
def admission (env : Env) (s : session) (w : World) (user : String) : session × World :=
  let welcome := fun (s : session) (w : World) =>
    let r := updateConnUsed s w 1
    (r.1, PrintfLine r.2 "281 Welcome")
  if goInt (s.User.ConnUsed + 1) > s.User.MaxConn then
    welcome s (Close (PrintfLine w "502 Too many connections"))
  else if s.User.AllowanceUsed ≥ s.User.Allowance then
    if s.User.Allowance ≠ 0 ∧ w.now > s.User.EndDate then
      let r := resetAllowance env s w
      welcome r.1 r.2
    else
      (s, Close (enterCache (PrintfLine w "502 Allowance Used") user "allowance" "true" minute))
  else welcome s w

/-- Lines 358-422. -/
def handleAuth (env : Env) (args : List String) (s : session) (w : World) :
    Except Halt (session × World) :=
  if args.length < 2 then
    .ok (s, Close (PrintfLine w "502 Unknown Syntax!"))
  else do
    let a0 ← index args 0
    if env.ToLower a0 ≠ "user" then
      .ok (s, Close (PrintfLine w "502 Unknown Syntax!"))
    else
      let w1 := PrintfLine w "381 Continue"
      let rd := ReadLine w1
      let parts := SplitN rd.1 3
      let p0 ← index parts 0
      if env.ToLower p0 ≠ "authinfo" then
        .ok (s, Close (PrintfLine rd.2 "502 Unknown Syntax!"))
      else
        let p1 ← index parts 1
        if env.ToLower p1 ≠ "pass" then
          .ok (s, Close (PrintfLine rd.2 "502 Unknown Syntax!"))
        else
          let user ← index args 1
          let blocked := checkCache rd.2 user "blocked" "true"
          if blocked.1 then
            .ok (s, Close (PrintfLine blocked.2 "502 Auth Failed"))
          else
            let used := checkCache blocked.2 user "allowance" "true"
            if used.1 then
              .ok (s, Close (PrintfLine used.2 "502 Allowance Used"))
            else
              let password ← index parts 2
              let auth := handleAuthorization s used.2 user password
              if auth.1 then .ok (admission env auth.2.1 auth.2.2 user)
              else .ok (s, authFailed auth.2.2 user)

/-! ## Forwarding (`handleRequests`, lines 213-290) -/

/-- Lines 215-222 without the deferred reset: count the request, or flush. -/
def countOrFlush (s : session) (w : World) : session × World :=
  if s.RequestsSinceUpdaate < 10 then
    ({ s with RequestsSinceUpdaate := goInt (s.RequestsSinceUpdaate + 1) }, w)
  else updateSession s w

/-- Lines 224-232: the quota re-check. The first component tells whether the function
goes on to the pool (`true`) or has answered `502 Allowance Used` and returns. -/
def quotaRecheck (env : Env) (s : session) (w : World) : Bool × session × World :=
  if s.User.AllowanceUsed > s.User.Allowance then
    if w.now > s.User.EndDate then
      let r := resetAllowance env s w
      (true, r.1, r.2)
    else (false, s, Close (PrintfLine w "502 Allowance Used"))
  else (true, s, w)

/-- The call `connectionPool.Return(conn)` on the shared pool of the world. -/
def poolReturn (w : World) (conn : Option Nat) : Except Halt World :=
  match w.pool.Return conn with
  | some p => .ok { w.emit (.poolReturn conn) with pool := p }
  | none => .error .blocked

/-- Lines 213-290. Each pass consumes one scripted `Attempt`; the retry of the source is
the recursive call. The deferred reset of `RequestsSinceUpdaate` (lines 219-221) is
applied to what the pass returns. -/
def handleRequests (env : Env) :
    List Attempt → session → World → Except Halt (session × World × List Attempt)
  | [], _, _ => .error .exhausted
  | a :: rest, s, w =>
    let flush : Bool := decide (¬ s.RequestsSinceUpdaate < 10)
    let deferred := fun (r : session × World × List Attempt) =>
      if flush then (({ r.1 with RequestsSinceUpdaate := 0 } : session), r.2) else r
    let st := countOrFlush s w
    let q := quotaRecheck env st.1 st.2
    if q.1 = false then .ok (deferred (q.2.1, q.2.2, a :: rest))
    else
      let s1 := q.2.1
      let w1 := q.2.2.emit .poolGet
      match w1.pool.Get a.factory with
      | none => .error .blocked
      | some (p, none) => do
        let w2 ← poolReturn { w1 with pool := p } none
        let r ← handleRequests env rest s1 w2
        .ok (deferred r)
      | some (p, some conn) =>
        let w2 := { w1 with pool := p }.emit (.upstreamPrintfLine conn s1.command)
        if a.writeOk = false then do
          let w3 ← poolReturn w2 none
          let r ← handleRequests env rest s1 w3
          .ok (deferred r)
        else
          let w3 := w2.emit (.upstreamReadCodeLine conn)
          match ReadCodeLine220 a.read with
          | (_, _, .eof) => do
            let w4 ← poolReturn (w3.emit (.upstreamClose conn)) none
            let r ← handleRequests env rest s1 w4
            .ok (deferred r)
          | (id, msg, .other) => do
            let w4 := PrintfLine w3 (fmtS (.int id) ++ " " ++ fmtS (.str msg))
            let w5 ← poolReturn w4 (some conn)
            .ok (deferred (s1, w5, rest))
          | (_, msg, .none) =>
            let parts := SplitN msg 2
            match index parts 1 with
            | .error h => .error h
            | .ok p1 => do
              let w4 := PrintfLine w3 ("220 1 " ++ fmtS (.str p1))
              let w5 := w4.emit (.dotCopy a.body)
              let s2 := { s1 with Bytes := goInt (s1.Bytes + a.body) }
              let w6 ← poolReturn w5 (some conn)
              .ok (deferred (s2, w6, rest))

/-! ## Dispatch and the session loop -/

/-- Lines 186-211. -/
def dispatchCommand (env : Env) (atts : List Attempt) (s : session) (w : World) :
    Except Halt (session × World × List Attempt) := do
  let cmd := Split s.command
  let args := if cmd.length > 1 then cmd.drop 1 else []
  let c0 ← index cmd 0
  if env.ToLower c0 = "authinfo" then
    let r ← handleAuth env args s w
    .ok (r.1, r.2, atts)
  else if isCommandAllowed env (env.ToLower c0) then
    handleRequests env atts s w
  else
    .ok (s, PrintfLine w ("502 " ++ fmtS (.str c0) ++ " not allowed"), atts)

/-- The loop of lines 579-603: `fuel` bounds the number of iterations. A read error
(closed connection or no more input) ends the session through `closeSession`. -/
def serve (env : Env) : Nat → List Attempt → session → World → Except Halt (session × World)
  | 0, _, _, _ => .error .exhausted
  | fuel + 1, atts, s, w =>
    if w.closed = true ∨ w.input = [] then
      let r := closeSession s w
      .ok (r.1, Close r.2)
    else
      let rd := ReadLine w
      match dispatchCommand env atts { s with command := rd.1 } rd.2 with
      | .error h => .error h
      | .ok r => serve env fuel r.2.2 r.1 r.2.1

/-- Lines 561-605: the fresh session record, the greeting, and the loop. -/
def handleRequest (env : Env) (fuel : Nat) (atts : List Attempt) (w : World) :
    Except Halt (session × World) :=
  serve env fuel atts ⟨"", User.zero, Session.zero, 0, 0⟩
    (PrintfLine w "200 Welcome to NNTP Proxy!")

/-! ## Derived notions used in the statements -/

/-- The failed-authentication branch run `k` times in a row for `user`. -/
def authFailedTimes (user : String) : Nat → World → World
  | 0, w => w
  | k + 1, w => authFailed (authFailedTimes user k w) user

/-- Pool calls as `handleRequests` issues them: `Get` (line 234), `Return(nil)` after a
failed `Get` (lines 239-240), `Return(nil)` after dropping a broken connection
(lines 251-252 and 260-262), `Return(conn)` (lines 269 and 279). -/
inductive PoolOp where
  | get (factory : Option Nat)
  | retFailedGet
  | discard (conn : Nat)
  | ret (conn : Nat)
  deriving DecidableEq, Repr

/-- The shared pool together with the connections handed out to sessions and not yet
given back or dropped. -/
structure PoolRun where
  pool : channelPool
  held : List Nat
  deriving DecidableEq, Repr

/-- One pool call, atomically; `none` when the call blocks. -/
def PoolRun.step (r : PoolRun) : PoolOp → Option PoolRun
  | .get f =>
    match r.pool.Get f with
    | none => none
    | some (p, none) => some ⟨p, r.held⟩
    | some (p, some c) => some ⟨p, c :: r.held⟩
  | .retFailedGet => (r.pool.Return none).map (fun p => ⟨p, r.held⟩)
  | .discard c => (r.pool.Return none).map (fun p => ⟨p, r.held.erase c⟩)
  | .ret c => (r.pool.Return (some c)).map (fun p => ⟨p, r.held.erase c⟩)

/-- A sequence of pool calls. -/
def PoolRun.run : PoolRun → List PoolOp → Option PoolRun
  | r, [] => some r
  | r, op :: ops =>
    match r.step op with
    | none => none
    | some r1 => r1.run ops

/-- Live upstream connections: queued in the pool plus handed out. -/
def PoolRun.live (r : PoolRun) : Nat := r.pool.conns.length + r.held.length

/-- Column `bytes` of the session row `id`. -/
def storedBytes (db : DB) (id : Int) : Option Int :=
  (db.sessions.find? (fun r => r.Id = id)).map (fun r => r.Bytes)

/-- Column `allowanceused` of the user row `id`. -/
def storedAllowanceUsed (db : DB) (id : Int) : Option Int :=
  (db.users.find? (fun u => u.Id = id)).map (fun u => u.AllowanceUsed)

/-- Column `connused` of the user row `id`. -/
def storedConnUsed (db : DB) (id : Int) : Option Int :=
  (db.users.find? (fun u => u.Id = id)).map (fun u => u.ConnUsed)

/-- The deltas of the `updateConnUsed` calls of a trace for user `id`. -/
def connDeltas (id : Int) : List Event → List Int
  | [] => []
  | .dbUpdateConnUsed i v :: es => if i = id then v :: connDeltas id es else connDeltas id es
  | _ :: es => connDeltas id es

/-- Sum of the byte counts returned by the body copies of a trace (line 284). -/
def copiedIn : List Event → Nat
  | [] => 0
  | .dotCopy n :: es => n + copiedIn es
  | _ :: es => copiedIn es

/-- Whether `resetAllowance` (lines 424-431) was called in a trace. -/
def resetIn : List Event → Bool
  | [] => false
  | .dbResetAllowance _ :: _ => true
  | _ :: es => resetIn es

/-- Sum of the byte counts the scripted upstream would deliver. -/
def bodySum : List Attempt → Nat
  | [] => 0
  | a :: rest => a.body + bodySum rest

/-- The bookkeeping relation between a session and the store, for the session row `sid`
and the user row `uid`: the row's `bytes` plus the accumulator is `kb` plus the bytes
copied so far, the row is never below `b0`, and as long as no allowance reset has run
the user's `allowanceused` plus the accumulator is `ka` plus the bytes copied so far. -/
def Accounted (sid uid kb ka b0 : Int) (s : session) (w : World) : Prop :=
  s.Session.Id = sid ∧ s.User.Id = uid ∧ 0 ≤ s.Bytes ∧
  (∃ b : Int, storedBytes w.db sid = some b ∧ b0 ≤ b ∧ b + s.Bytes = kb + copiedIn w.trace) ∧
  (resetIn w.trace = false →
    ∃ a : Int, storedAllowanceUsed w.db uid = some a ∧ a + s.Bytes = ka + copiedIn w.trace)

/-- The stored counter of `user` is absent or the decimal string of a number in 0..100. -/
def CounterBounded (c : Cache) (user : String) : Prop :=
  cacheLookup c (user ++ ":" ++ "authfailed") = none ∨
    ∃ j : Nat, j ≤ 100 ∧ cacheLookup c (user ++ ":" ++ "authfailed") = some (Itoa j)

/-! ## Concrete data for the worked runs -/

/-- A configuration: ASCII lower-casing, allow-list `article`, `body`. -/
def exampleEnv : Env := ⟨asciiLower, ["article", "body"], fun d p => d + 30 * p⟩

/-- The pool of `main`: `NewChannelPool(0, 50, factory)`. -/
def mainPool : channelPool := ⟨[], 50, 0, 0⟩

/-- A user `alice`/`secret` with `max_conn = 1`, allowance 1000 of which 400 is used,
renewal date 500, no session open. -/
def alice : User := ⟨7, "alice", "secret", 1, 1000, 500, 400, 1, 0⟩

/-- A world at time 100 with the given users and pending client lines, empty cache, no
session rows, the pool of `main`. -/
def startWorld (users : List User) (input : List String) : World :=
  ⟨⟨users, [], 1⟩, [], mainPool, 100, input, false, []⟩

/-- The session record of a connection that has just been accepted (lines 565-575). -/
def freshSession : session := ⟨"", User.zero, Session.zero, 0, 0⟩

/-- The session record of `alice` once admitted, with session row 1. -/
def aliceSession : session := ⟨"", alice, ⟨1, 7, 0, 100⟩, 0, 0⟩

/-- A world holding `alice` and her session row 1. -/
def aliceWorld : World := ⟨⟨[alice], [⟨1, 7, 0, 100⟩], 2⟩, [], mainPool, 100, [], false, []⟩

/-- Trace of a handler result, when it returned. -/
def traceOf (r : Except Halt (session × World)) : Option (List Event) :=
  r.toOption.map (fun x => x.2.trace)

/-! ## Sanity checks of the library primitives -/

example : Split "AUTHINFO USER bob" = ["AUTHINFO", "USER", "bob"] := by decide
example : SplitN "" 3 = [""] := by decide
example : SplitN "a b c d" 3 = ["a", "b", "c d"] := by decide
example : Atoi "100" = 100 := by decide
example : Atoi "99999999999999999999" = 9223372036854775807 := by decide
example : Atoi "x" = 0 := by decide
example : Itoa (-42) = "-42" := by decide
example : fmtS (.int 430) = "%!s(int=430)" := by decide
example : NewChannelPool 0 50 [] = some mainPool := by decide

/-! ## Lemmas shared by several claims -/

/-- First component of `checkCache`: the key is present with exactly this value. -/
theorem checkCache_fst (w : World) (user key value : String) :
    (checkCache w user key value).1 =
      decide (cacheLookup w.cache (user ++ ":" ++ key) = some value) := by
  unfold checkCache
  cases h : cacheLookup w.cache (user ++ ":" ++ key) <;> simp

/-- Second component of `checkCache`: only the read is recorded. -/
theorem checkCache_snd (w : World) (user key value : String) :
    (checkCache w user key value).2 = w.emit (.cacheGet (user ++ ":" ++ key)) := rfl

/-- Inside the 64-bit range `goInt` is the identity. -/
theorem goInt_of_range (x : Int) (h1 : -2 ^ 63 ≤ x) (h2 : x < 2 ^ 63) : goInt x = x := by
  unfold goInt
  omega

/-- The worker of `strings.Split` never returns the empty list. -/
theorem splitAux_ne_nil (cs cur : List Char) : splitAux cs cur ≠ [] := by
  induction cs generalizing cur with
  | nil => simp [splitAux]
  | cons c cs ih =>
    unfold splitAux
    split_ifs
    · simp
    · exact ih _

/-- Every line has a first space-separated token: `cmd[0]` of line 198 exists. -/
theorem Split_head (line : String) : ∃ t cs, Split line = t :: cs := by
  unfold Split
  cases h : splitAux line.data [] with
  | nil => exact absurd h (splitAux_ne_nil _ _)
  | cons a as => exact ⟨String.mk a, as.map String.mk, rfl⟩

/-! ## C1: dispatch before authentication -/

/-- Dispatch never looks at the authentication state: for every session record and every
line whose command token is on the allow-list (and is not `authinfo`), `dispatchCommand`
is `handleRequests`. -/
theorem dispatchCommand_allowed (env : Env) (atts : List Attempt) (s : session) (w : World)
    (c0 : String) (cs : List String) (hsplit : Split s.command = c0 :: cs)
    (hcmd : env.ToLower c0 ≠ "authinfo")
    (hallowed : isCommandAllowed env (env.ToLower c0) = true) :
    dispatchCommand env atts s w = handleRequests env atts s w := by
  simp [dispatchCommand, hsplit, index, hcmd, hallowed, bind, Except.bind]

/-- C1, evaluated at the failing input: a session that has just been accepted and has
sent no `AUTHINFO` sends `ARTICLE <1@x>` with `article` on the allow-list. The dispatcher
calls `handleRequests`: the trace has a pool `Get`, the command written to the upstream
connection and the article forwarded, and no `502 ARTICLE not allowed`. -/
theorem dispatchCommand_forwards_before_authentication :
    traceOf (handleRequest exampleEnv 2 [⟨some 1, true, .line "220 0 <1@x>", 5⟩]
      (startWorld [alice] ["ARTICLE <1@x>"])) =
    some [.printfLine "200 Welcome to NNTP Proxy!", .poolGet,
      .upstreamPrintfLine 1 "ARTICLE <1@x>", .upstreamReadCodeLine 1,
      .printfLine "220 1 <1@x>", .dotCopy 5, .poolReturn (some 1),
      .dbUpdateConnUsed 0 (-1), .dbAddSessionBytes 0 5, .dbAddAllowanceUsed 0 5,
      .dbGetUserById 0, .close] := by
  decide

/-! ## C2: too many connections -/

/-- C2, evaluated at the failing input: `alice` has `max_conn = 1` and one session open,
and authenticates with the right password. The session row is inserted by
`handleAuthorization` before the limit is looked at, and after `502 Too many connections`
and `Close` the function falls through to `updateConnUsed(1)` and `281 Welcome`:
`conn_used` goes from 1 to 2. -/
theorem handleAuth_too_many_connections_falls_through :
    (handleAuth exampleEnv ["USER", "alice"] freshSession
      (startWorld [{ alice with ConnUsed := 1 }] ["AUTHINFO PASS secret"])).toOption.map
      (fun r => (r.2.trace, r.2.db.sessions, storedConnUsed r.2.db 7)) =
    some ([.printfLine "381 Continue", .cacheGet "alice:blocked", .cacheGet "alice:allowance",
        .dbGetUserByName "alice", .dbInsertSession 7,
        .printfLine "502 Too many connections", .close,
        .dbUpdateConnUsed 7 1, .printfLine "281 Welcome"],
      [⟨1, 7, 0, 100⟩], some 2) := by
  decide

/-! ## C3: a zero allowance -/

/-- C3, counterexample: `alice` has `allowance = 0` and `allowance_used = 0`, no session
open, nothing cached, and sends her correct password: the admission step answers
`502 Allowance Used`, caches `alice:allowance` and closes. With `allowance = 0` and
`allowance_used = 5` before her renewal date, the quota re-check of `handleRequests`
answers `502 Allowance Used` and closes. -/
theorem allowance_zero_refused :
    traceOf (handleAuth exampleEnv ["USER", "alice"] freshSession
      (startWorld [{ alice with Allowance := 0, AllowanceUsed := 0 }]
        ["AUTHINFO PASS secret"])) =
      some [.printfLine "381 Continue", .cacheGet "alice:blocked", .cacheGet "alice:allowance",
        .dbGetUserByName "alice", .dbInsertSession 7, .printfLine "502 Allowance Used",
        .cacheSet "alice:allowance" "true" 60, .close] ∧
    quotaRecheck exampleEnv
        { freshSession with User := { alice with Allowance := 0, AllowanceUsed := 5 } }
        (startWorld [] []) =
      (false, { freshSession with User := { alice with Allowance := 0, AllowanceUsed := 5 } },
        { (startWorld [] []) with
          closed := true, trace := [.printfLine "502 Allowance Used", .close] }) := by
  constructor
  · decide
  · decide

/-- C3, amended: for a user `u` with `allowance = 0` and `allowance_used ≥ 0`, a matching
password, `conn_used + 1 ≤ max_conn` and neither `blocked` nor `allowance` cached as
`"true"`, the admission step of `handleAuth` always answers `502 Allowance Used`, caches
`user:allowance = "true"` for 60 s and closes; it writes no `281 Welcome` and issues no
`updateConnUsed`. The quota re-check of `handleRequests` lets the request through when
`allowance_used = 0`, resets the allowance and lets it through when `allowance_used > 0`
and the time is after `end_date`, and otherwise answers `502 Allowance Used` and
closes. -/
theorem allowance_zero_is_zero_quota (env : Env) (s : session) (w : World)
    (a0 user : String) (more : List String) (line : String) (rest : List String)
    (p0 p1 pw : String) (u : User)
    (h0 : env.ToLower a0 = "user")
    (hopen : w.closed = false) (hin : w.input = line :: rest)
    (hparts : SplitN line 3 = [p0, p1, pw])
    (hp0 : env.ToLower p0 = "authinfo") (hp1 : env.ToLower p1 = "pass")
    (hb : cacheLookup w.cache (user ++ ":" ++ "blocked") ≠ some "true")
    (ha : cacheLookup w.cache (user ++ ":" ++ "allowance") ≠ some "true")
    (hfind : w.db.users.find? (fun x => x.UserName = user) = some u)
    (hpw : u.Password = pw)
    (hconn : ¬ goInt (u.ConnUsed + 1) > u.MaxConn)
    (hzero : u.Allowance = 0) (hused : 0 ≤ u.AllowanceUsed) :
    handleAuth env (a0 :: user :: more) s w =
      .ok ({ s with User := u, Session := { s.Session with Id := goInt w.db.nextSessionId } },
        { w with
          db := { w.db with
            sessions := w.db.sessions ++ [⟨w.db.nextSessionId, u.Id, 0, w.now⟩],
            nextSessionId := w.db.nextSessionId + 1 },
          cache := cacheStore w.cache (user ++ ":" ++ "allowance") "true" 60,
          input := rest, closed := true,
          trace := w.trace ++ [.printfLine "381 Continue", .cacheGet (user ++ ":" ++ "blocked"),
            .cacheGet (user ++ ":" ++ "allowance"), .dbGetUserByName user,
            .dbInsertSession u.Id, .printfLine "502 Allowance Used",
            .cacheSet (user ++ ":" ++ "allowance") "true" 60, .close] }) ∧
    (∀ (s2 : session) (w2 : World), s2.User = u →
      quotaRecheck env s2 w2 =
        if u.AllowanceUsed = 0 then (true, s2, w2)
        else if w2.now > u.EndDate then
          (true, (resetAllowance env s2 w2).1, (resetAllowance env s2 w2).2)
        else (false, s2, Close (PrintfLine w2 "502 Allowance Used"))) := by
  have hlen : ¬ (more.length + 1 + 1 < 2) := by omega
  constructor
  · have hge : u.AllowanceUsed ≥ 0 := hused
    simp [handleAuth, index, h0, hp0, hp1, hparts, hin, hopen, hb, ha, hlen, ReadLine,
      PrintfLine, World.emit, Close, checkCache_fst, checkCache_snd, bind, Except.bind,
      handleAuthorization, hfind, hpw, admission, hconn, hzero, hge, enterCache, minute]
  · intro s2 w2 hs
    subst hs
    unfold quotaRecheck
    simp only [hzero]
    by_cases h : s2.User.AllowanceUsed = 0
    · simp [h]
    · have : s2.User.AllowanceUsed > 0 := by omega
      simp [h, this]

/-- Witness of the amended C3: a user with `allowance = 0`, `allowance_used = 3` and
renewal date 500, at time 100. -/
theorem allowance_zero_is_zero_quota_witness :
    handleAuth exampleEnv ["USER", "alice"] freshSession
        (startWorld [{ alice with Allowance := 0, AllowanceUsed := 3 }]
          ["AUTHINFO PASS secret"]) =
      .ok ({ freshSession with
          User := { alice with Allowance := 0, AllowanceUsed := 3 },
          Session := ⟨1, 0, 0, 0⟩ },
        { (startWorld [{ alice with Allowance := 0, AllowanceUsed := 3 }] []) with
          db := ⟨[{ alice with Allowance := 0, AllowanceUsed := 3 }], [⟨1, 7, 0, 100⟩], 2⟩,
          cache := [("alice:allowance", "true", 60)],
          closed := true,
          trace := [.printfLine "381 Continue", .cacheGet "alice:blocked",
            .cacheGet "alice:allowance", .dbGetUserByName "alice", .dbInsertSession 7,
            .printfLine "502 Allowance Used", .cacheSet "alice:allowance" "true" 60,
            .close] }) ∧
    quotaRecheck exampleEnv
        { freshSession with User := { alice with Allowance := 0, AllowanceUsed := 3 } }
        (startWorld [] []) =
      (false, { freshSession with User := { alice with Allowance := 0, AllowanceUsed := 3 } },
        Close (PrintfLine (startWorld [] []) "502 Allowance Used")) :=
  ⟨(allowance_zero_is_zero_quota exampleEnv freshSession
      (startWorld [{ alice with Allowance := 0, AllowanceUsed := 3 }] ["AUTHINFO PASS secret"])
      "USER" "alice" [] "AUTHINFO PASS secret" [] "AUTHINFO" "PASS" "secret"
      { alice with Allowance := 0, AllowanceUsed := 3 }
      (by decide) rfl rfl (by decide) (by decide) (by decide) (by decide) (by decide)
      (by decide) rfl (by decide) rfl (by decide)).1,
   (allowance_zero_is_zero_quota exampleEnv freshSession
      (startWorld [{ alice with Allowance := 0, AllowanceUsed := 3 }] ["AUTHINFO PASS secret"])
      "USER" "alice" [] "AUTHINFO PASS secret" [] "AUTHINFO" "PASS" "secret"
      { alice with Allowance := 0, AllowanceUsed := 3 }
      (by decide) rfl rfl (by decide) (by decide) (by decide) (by decide) (by decide)
      (by decide) rfl (by decide) rfl (by decide)).2
      { freshSession with User := { alice with Allowance := 0, AllowanceUsed := 3 } }
      (startWorld [] []) rfl⟩

/-! ## C4: balance of the `conn_used` updates -/

/-- C4, evaluated at the failing input: `alice` has used her whole allowance and her
renewal date is in the future. She is refused with `502 Allowance Used`, so no
`updateConnUsed(1)` is issued; the read error that follows runs `closeSession`, which
issues `updateConnUsed(-1)` for her: the deltas sum to -1 and her `conn_used` goes
from 0 to -1. -/
theorem closeSession_decrements_refused_session :
    (handleRequest exampleEnv 3 []
      (startWorld [{ alice with AllowanceUsed := 1000 }]
        ["AUTHINFO USER alice", "AUTHINFO PASS secret"])).toOption.map
      (fun r => (delivered r.2.trace, connDeltas 7 r.2.trace, storedConnUsed r.2.db 7)) =
    some (["200 Welcome to NNTP Proxy!", "381 Continue", "502 Allowance Used"],
      [-1], some (-1)) := by
  decide

/-! ## C5: the failure counter of the lockout cache -/

theorem Atoi_Itoa_le_100 : ∀ k : Nat, k < 101 → Atoi (Itoa k) = k := by
  decide

theorem key_ne (user : String) :
    user ++ ":" ++ "authfailed" ≠ user ++ ":" ++ "blocked" := by
  intro h
  have h1 := congrArg String.data h
  simp only [String.data_append, List.append_assoc] at h1
  have h2 := List.append_cancel_left h1
  revert h2
  decide

theorem cacheLookup_store_same (c : Cache) (key val : String) (ttl : Nat) :
    cacheLookup (cacheStore c key val ttl) key = some val := by
  simp [cacheLookup, cacheStore]

theorem clampInt64_range (neg : Bool) (v : Nat) :
    -2 ^ 63 ≤ clampInt64 neg v ∧ clampInt64 neg v < 2 ^ 63 := by
  unfold clampInt64
  split_ifs <;> omega

theorem atoiChars_range (cs : List Char) : -2 ^ 63 ≤ atoiChars cs ∧ atoiChars cs < 2 ^ 63 := by
  unfold atoiChars
  split
  · omega
  · split_ifs
    · split
      · omega
      · split
        · exact clampInt64_range _ _
        · omega
    · split
      · exact clampInt64_range _ _
      · omega

theorem authFailed_eq (w : World) (user : String) :
    authFailed w user =
      if goInt (Atoi ((cacheLookup w.cache (user ++ ":" ++ "authfailed")).getD "") + 1) > 100 then
        { w with
          cache := cacheStore (cacheStore w.cache (user ++ ":" ++ "blocked") "true" 60)
            (user ++ ":" ++ "authfailed") "0" 60,
          closed := true,
          trace := w.trace ++ [.printfLine "502 AUTH FAILED!",
            .cacheGet (user ++ ":" ++ "authfailed"),
            .cacheSet (user ++ ":" ++ "blocked") "true" 60,
            .cacheSet (user ++ ":" ++ "authfailed") "0" 60, .close] }
      else
        { w with
          cache := cacheStore w.cache (user ++ ":" ++ "authfailed")
            (Itoa (goInt (Atoi ((cacheLookup w.cache (user ++ ":" ++ "authfailed")).getD "") + 1)))
            60,
          closed := true,
          trace := w.trace ++ [.printfLine "502 AUTH FAILED!",
            .cacheGet (user ++ ":" ++ "authfailed"),
            .cacheSet (user ++ ":" ++ "authfailed")
              (Itoa (goInt
                (Atoi ((cacheLookup w.cache (user ++ ":" ++ "authfailed")).getD "") + 1)))
              60,
            .close] } := by
  have h0 : Itoa 0 = "0" := by decide
  unfold authFailed
  split_ifs with h <;>
    simp [getCache, enterCache, PrintfLine, Close, World.emit, minute, h, h0]

/-- Cache after one failure when the stored counter reads `j < 100`. -/
theorem authFailed_cache_lt (w : World) (user : String) (j : Nat) (hj : j < 100)
    (hv : Atoi ((cacheLookup w.cache (user ++ ":" ++ "authfailed")).getD "") = j) :
    (authFailed w user).cache =
      cacheStore w.cache (user ++ ":" ++ "authfailed") (Itoa ((j + 1 : Nat) : Int)) 60 := by
  have hg : goInt ((j : Int) + 1) = ((j + 1 : Nat) : Int) := by
    rw [goInt_of_range] <;> push_cast <;> omega
  have hn : ¬ (((j + 1 : Nat) : Int) > 100) := by push_cast; omega
  rw [authFailed_eq, hv, hg, if_neg hn]

/-- Cache after one failure when the stored counter reads 100. -/
theorem authFailed_cache_100 (w : World) (user : String)
    (hv : Atoi ((cacheLookup w.cache (user ++ ":" ++ "authfailed")).getD "") = 100) :
    (authFailed w user).cache =
      cacheStore (cacheStore w.cache (user ++ ":" ++ "blocked") "true" 60)
        (user ++ ":" ++ "authfailed") "0" 60 := by
  have hg : goInt ((100 : Int) + 1) > 100 := by decide
  rw [authFailed_eq, hv, if_pos hg]

theorem counterBounded_authFailed (w : World) (user : String)
    (h : CounterBounded w.cache user) :
    ∃ j : Nat, j ≤ 100 ∧
      cacheLookup (authFailed w user).cache (user ++ ":" ++ "authfailed") = some (Itoa j) := by
  have key : ∃ j : Nat, j ≤ 100 ∧
      Atoi ((cacheLookup w.cache (user ++ ":" ++ "authfailed")).getD "") = j := by
    rcases h with h | ⟨j, hj, h⟩
    · exact ⟨0, by omega, by rw [h]; decide⟩
    · exact ⟨j, hj, by rw [h]; exact Atoi_Itoa_le_100 j (by omega)⟩
  obtain ⟨j, hj, hv⟩ := key
  by_cases hlt : j < 100
  · exact ⟨j + 1, by omega, by rw [authFailed_cache_lt w user j hlt hv, cacheLookup_store_same]⟩
  · have : j = 100 := by omega
    subst this
    exact ⟨0, by omega, by
      rw [authFailed_cache_100 w user hv, cacheLookup_store_same]; rfl⟩

theorem authFailedTimes_cache (w : World) (user : String) (hw : w.cache = []) :
    ∀ k : Nat, k < 100 →
      (authFailedTimes user (k + 1) w).cache =
        [(user ++ ":" ++ "authfailed", Itoa ((k + 1 : Nat) : Int), 60)] := by
  intro k
  induction k with
  | zero =>
    intro _
    have hv : Atoi ((cacheLookup w.cache (user ++ ":" ++ "authfailed")).getD "") = (0 : Nat) := by
      rw [hw]; rfl
    show (authFailed w user).cache = _
    rw [authFailed_cache_lt w user 0 (by omega) hv, hw]
    simp [cacheStore]
  | succ k ih =>
    intro hk
    have ih1 := ih (by omega)
    have hv : Atoi ((cacheLookup (authFailedTimes user (k + 1) w).cache
        (user ++ ":" ++ "authfailed")).getD "") = ((k + 1 : Nat) : Int) := by
      rw [ih1]
      simp only [cacheLookup, List.find?, decide_True, Option.map, Option.getD]
      exact Atoi_Itoa_le_100 (k + 1) (by omega)
    show (authFailed (authFailedTimes user (k + 1) w) user).cache = _
    rw [authFailed_cache_lt _ user (k + 1) (by omega) hv, ih1]
    simp [cacheStore]

theorem authFailedTimes_cache_101 (w : World) (user : String) (hw : w.cache = []) :
    (authFailedTimes user 101 w).cache =
      [(user ++ ":" ++ "authfailed", "0", 60), (user ++ ":" ++ "blocked", "true", 60)] := by
  have h100 := authFailedTimes_cache w user hw 99 (by omega)
  have hv : Atoi ((cacheLookup (authFailedTimes user 100 w).cache
      (user ++ ":" ++ "authfailed")).getD "") = 100 := by
    rw [h100]
    simp only [cacheLookup, List.find?, decide_True, Option.map, Option.getD]
    decide
  show (authFailed (authFailedTimes user 100 w) user).cache = _
  rw [authFailed_cache_100 _ user hv, h100]
  have hne := key_ne user
  simp [cacheStore, hne, Ne.symm hne]

/-- C5: the failed-authentication branch (lines 409-420) for the cached string of
`user:authfailed` read as `n` (empty or not a number: 0). If `n + 1 > 100` it sets
`user:blocked = "true"` and `user:authfailed = "0"`, both for 60 s; otherwise it sets
`user:authfailed` to the decimal string of `n + 1` for 60 s and leaves `blocked` alone.
The sum is the Go sum, which is the integer sum for every `n` below `2^63 - 1`. A counter
that is absent or in 0..100 is in 0..100 afterwards; from an empty cache the first 100
failures in a row store 1, ..., 100 and nothing else, and the 101st stores `blocked` and
resets the counter to `"0"`. -/
theorem authFailed_counter (user : String) (w : World) :
    (authFailed w user =
      if goInt (Atoi ((cacheLookup w.cache (user ++ ":" ++ "authfailed")).getD "") + 1) > 100 then
        { w with
          cache := cacheStore (cacheStore w.cache (user ++ ":" ++ "blocked") "true" 60)
            (user ++ ":" ++ "authfailed") "0" 60,
          closed := true,
          trace := w.trace ++ [.printfLine "502 AUTH FAILED!",
            .cacheGet (user ++ ":" ++ "authfailed"),
            .cacheSet (user ++ ":" ++ "blocked") "true" 60,
            .cacheSet (user ++ ":" ++ "authfailed") "0" 60, .close] }
      else
        { w with
          cache := cacheStore w.cache (user ++ ":" ++ "authfailed")
            (Itoa (goInt (Atoi ((cacheLookup w.cache (user ++ ":" ++ "authfailed")).getD "") + 1)))
            60,
          closed := true,
          trace := w.trace ++ [.printfLine "502 AUTH FAILED!",
            .cacheGet (user ++ ":" ++ "authfailed"),
            .cacheSet (user ++ ":" ++ "authfailed")
              (Itoa (goInt
                (Atoi ((cacheLookup w.cache (user ++ ":" ++ "authfailed")).getD "") + 1)))
              60,
            .close] }) ∧
    (∀ val : String, Atoi val < 2 ^ 63 - 1 → goInt (Atoi val + 1) = Atoi val + 1) ∧
    (CounterBounded w.cache user → CounterBounded (authFailed w user).cache user) ∧
    (w.cache = [] →
      (∀ k : Nat, 1 ≤ k → k ≤ 100 →
        (authFailedTimes user k w).cache =
          [(user ++ ":" ++ "authfailed", Itoa (k : Int), 60)]) ∧
      (authFailedTimes user 101 w).cache =
        [(user ++ ":" ++ "authfailed", "0", 60), (user ++ ":" ++ "blocked", "true", 60)] ∧
      ∀ k : Nat, CounterBounded (authFailedTimes user k w).cache user) := by
  refine ⟨authFailed_eq w user, ?_, ?_, ?_⟩
  · intro val hval
    have hr := atoiChars_range val.data
    apply goInt_of_range
    · unfold Atoi; omega
    · unfold Atoi at hval ⊢; omega
  · intro h
    exact Or.inr (counterBounded_authFailed w user h)
  · intro hw
    refine ⟨?_, authFailedTimes_cache_101 w user hw, ?_⟩
    · intro k h1 h2
      obtain ⟨m, rfl⟩ : ∃ m, k = m + 1 := ⟨k - 1, by omega⟩
      exact authFailedTimes_cache w user hw m (by omega)
    · intro k
      induction k with
      | zero => exact Or.inl (by show cacheLookup w.cache _ = none; rw [hw]; rfl)
      | succ k ih => exact Or.inr (counterBounded_authFailed _ user ih)

/-- Witness of C5: user `bob`, empty cache: 100 failures store `bob:authfailed = "100"`
and no `blocked`; the 101st stores `blocked` and `"0"`. -/
theorem authFailed_counter_witness :
    (authFailedTimes "bob" 100 (startWorld [] [])).cache = [("bob:authfailed", "100", 60)] ∧
    (authFailedTimes "bob" 101 (startWorld [] [])).cache =
      [("bob:authfailed", "0", 60), ("bob:blocked", "true", 60)] ∧
    goInt (Atoi "100" + 1) = Atoi "100" + 1 :=
  ⟨((authFailed_counter "bob" (startWorld [] [])).2.2.2 rfl).1 100 (by decide) (by decide),
   ((authFailed_counter "bob" (startWorld [] [])).2.2.2 rfl).2.1,
   (authFailed_counter "bob" (startWorld [] [])).2.1 "100" (by decide)⟩

/-! ## C6: the pool bound -/

/-- C6, evaluated at the failing input: a pool `NewChannelPool(0, 2, factory)` and three
sessions. Session 1 gets connection 1; the factory fails for session 2, whose `Get`
gives its token back and whose `Return(nil)` (lines 239-240) takes a second token, the
one of connection 1; the retry of session 2 gets connection 2 and session 3 gets
connection 3. Three connections are live and the cap is 2. -/
theorem pool_exceeds_max_after_failed_get :
    (NewChannelPool 0 2 []).bind (fun p =>
      (PoolRun.run ⟨p, []⟩
        [.get (some 1), .get none, .retFailedGet, .get (some 2), .get (some 3)]).map
        (fun r => (r.held, r.live, r.pool.max))) =
    some ([3, 2, 1], 3, 2) := by
  decide

/-- The constructor has the same effect: the connections it queues hold no token, so
`NewChannelPool(1, 1, factory)` hands out its queued connection and then makes a
second one. -/
theorem pool_exceeds_max_after_initial_fill :
    (NewChannelPool 1 1 [some 1]).bind (fun p =>
      (PoolRun.run ⟨p, []⟩ [.get none, .get (some 2)]).map
        (fun r => (r.held, r.live, r.pool.max))) =
    some ([2, 1], 2, 1) := by
  decide

/-! ## C7: a status other than 220 -/

/-- C7, evaluated at the failing input: the upstream answers `430 No such article`. The
code line is formatted with `%s` applied to the integer code, so the client is sent
`%!s(int=430) No such article`; the connection goes back to the pool, the accumulator
stays 0 and the session stays open. -/
theorem handleRequests_non220_line :
    (handleRequests exampleEnv [⟨some 1, true, .line "430 No such article", 0⟩]
      { freshSession with command := "ARTICLE <1@x>", User := alice }
      (startWorld [alice] [])).toOption.map
      (fun r => (r.2.1.trace, r.1.Bytes, r.2.1.closed, r.2.1.pool.conns)) =
    some ([.poolGet, .upstreamPrintfLine 1 "ARTICLE <1@x>", .upstreamReadCodeLine 1,
        .printfLine "%!s(int=430) No such article", .poolReturn (some 1)],
      0, false, [1]) := by
  decide

/-! ## C8: malformed second line of the handshake -/

/-- C8, evaluated at the failing inputs: after `381 Continue` the line `AUTHINFO` makes
`parts[1]` an index out of range, and the line `AUTHINFO PASS` makes `parts[2]` one
(lines 378 and 392); the empty line is answered `502 Unknown Syntax!`. -/
theorem handleAuth_short_pass_line_panics :
    handleAuth exampleEnv ["USER", "alice"] freshSession (startWorld [alice] ["AUTHINFO"]) =
      .error (.panic "index out of range") ∧
    handleAuth exampleEnv ["USER", "alice"] freshSession
      (startWorld [alice] ["AUTHINFO PASS"]) = .error (.panic "index out of range") ∧
    traceOf (handleAuth exampleEnv ["USER", "alice"] freshSession (startWorld [alice] [""])) =
      some [.printfLine "381 Continue", .printfLine "502 Unknown Syntax!", .close] := by
  refine ⟨rfl, rfl, ?_⟩
  decide

/-! ## C9: refusals decided by the cache alone -/

/-- C9: the first line was `AUTHINFO USER user ...` and the line read after
`381 Continue` splits into `AUTHINFO`, `PASS` and anything (a password, right or wrong,
or none). If the cache holds `user:blocked = "true"`, `handleAuth` returns with the
session record, the store and the cache unchanged, having only read the cache, written
`502 Auth Failed` and closed. If `user:blocked` is not `"true"` and the cache holds
`user:allowance = "true"`, it likewise only reads the two keys, writes
`502 Allowance Used` and closes. -/
theorem handleAuth_cached_refusal (env : Env) (s : session) (w : World)
    (a0 user : String) (more : List String) (line : String) (rest : List String)
    (p0 p1 : String) (tail : List String)
    (h0 : env.ToLower a0 = "user")
    (hopen : w.closed = false) (hin : w.input = line :: rest)
    (hparts : SplitN line 3 = p0 :: p1 :: tail)
    (hp0 : env.ToLower p0 = "authinfo") (hp1 : env.ToLower p1 = "pass") :
    (cacheLookup w.cache (user ++ ":" ++ "blocked") = some "true" →
      handleAuth env (a0 :: user :: more) s w =
        .ok (s, { w with
          input := rest, closed := true,
          trace := w.trace ++ [.printfLine "381 Continue", .cacheGet (user ++ ":" ++ "blocked"),
            .printfLine "502 Auth Failed", .close] })) ∧
    (cacheLookup w.cache (user ++ ":" ++ "blocked") ≠ some "true" →
      cacheLookup w.cache (user ++ ":" ++ "allowance") = some "true" →
      handleAuth env (a0 :: user :: more) s w =
        .ok (s, { w with
          input := rest, closed := true,
          trace := w.trace ++ [.printfLine "381 Continue", .cacheGet (user ++ ":" ++ "blocked"),
            .cacheGet (user ++ ":" ++ "allowance"),
            .printfLine "502 Allowance Used", .close] })) := by
  have hlen : ¬ (more.length + 1 + 1 < 2) := by omega
  constructor
  · intro hb
    simp [handleAuth, index, h0, hp0, hp1, hparts, hin, hopen, hb, hlen, ReadLine, PrintfLine,
      World.emit, Close, checkCache_fst, checkCache_snd, bind, Except.bind]
  · intro hb ha
    simp [handleAuth, index, h0, hp0, hp1, hparts, hin, hopen, hb, ha, hlen, ReadLine, PrintfLine,
      World.emit, Close, checkCache_fst, checkCache_snd, bind, Except.bind]

/-- Witness of C9: `alice` is blocked, respectively has `allowance` cached, and sends her
correct password. -/
theorem handleAuth_cached_refusal_witness :
    handleAuth exampleEnv ["USER", "alice"] freshSession
        { startWorld [alice] ["AUTHINFO PASS secret"] with
          cache := [("alice:blocked", "true", 60)] } =
      .ok (freshSession, { startWorld [alice] ["AUTHINFO PASS secret"] with
        cache := [("alice:blocked", "true", 60)], input := [], closed := true,
        trace := [.printfLine "381 Continue", .cacheGet "alice:blocked",
          .printfLine "502 Auth Failed", .close] }) ∧
    handleAuth exampleEnv ["USER", "alice"] freshSession
        { startWorld [alice] ["AUTHINFO PASS secret"] with
          cache := [("alice:allowance", "true", 60)] } =
      .ok (freshSession, { startWorld [alice] ["AUTHINFO PASS secret"] with
        cache := [("alice:allowance", "true", 60)], input := [], closed := true,
        trace := [.printfLine "381 Continue", .cacheGet "alice:blocked",
          .cacheGet "alice:allowance", .printfLine "502 Allowance Used", .close] }) :=
  ⟨(handleAuth_cached_refusal exampleEnv freshSession
      { startWorld [alice] ["AUTHINFO PASS secret"] with cache := [("alice:blocked", "true", 60)] }
      "USER" "alice" [] "AUTHINFO PASS secret" [] "AUTHINFO" "PASS" ["secret"]
      (by decide) rfl rfl (by decide) (by decide) (by decide)).1 (by decide),
   (handleAuth_cached_refusal exampleEnv freshSession
      { startWorld [alice] ["AUTHINFO PASS secret"] with
        cache := [("alice:allowance", "true", 60)] }
      "USER" "alice" [] "AUTHINFO PASS secret" [] "AUTHINFO" "PASS" ["secret"]
      (by decide) rfl rfl (by decide) (by decide) (by decide)).2 (by decide) (by decide)⟩

/-! ## C10: byte accounting -/

/-- Looking a row up by a key that the row update preserves. -/
theorem find?_map_preserving {α : Type} (p : α → Bool) (f : α → α) (l : List α)
    (hp : ∀ x, p (f x) = p x) : (l.map f).find? p = (l.find? p).map f := by
  rw [List.find?_map]
  have : p ∘ f = p := funext hp
  rw [this]

theorem storedBytes_updateSession (s : session) (w : World) (id : Int) :
    storedBytes (updateSession s w).2.db id =
      (storedBytes w.db id).map (fun b => if id = s.Session.Id then b + s.Bytes else b) := by
  unfold storedBytes updateSession getUser
  simp only [World.emit]
  split <;>
  · simp only []
    rw [find?_map_preserving _ _ _ (by intro x; split_ifs <;> rfl)]
    cases h : List.find? (fun r => decide (r.Id = id)) w.db.sessions with
    | none => simp
    | some r =>
      have hr : r.Id = id := by simpa using List.find?_some h
      by_cases hid : id = s.Session.Id
      · simp [hid, hr ▸ hid]
      · simp [hid, hr ▸ hid]

theorem storedAllowanceUsed_updateSession (s : session) (w : World) (id : Int) :
    storedAllowanceUsed (updateSession s w).2.db id =
      (storedAllowanceUsed w.db id).map (fun a => if id = s.User.Id then a + s.Bytes else a) := by
  unfold storedAllowanceUsed updateSession getUser
  simp only [World.emit]
  split <;>
  · simp only []
    rw [find?_map_preserving _ _ _ (by intro x; split_ifs <;> rfl)]
    cases h : List.find? (fun u => decide (u.Id = id)) w.db.users with
    | none => simp
    | some r =>
      have hr : r.Id = id := by simpa using List.find?_some h
      by_cases hid : id = s.User.Id
      · simp [hid, hr ▸ hid]
      · simp [hid, hr ▸ hid]

theorem updateSession_fields (s : session) (w : World) :
    (updateSession s w).1.Session.Id = s.Session.Id ∧
    (updateSession s w).1.User.Id = s.User.Id ∧
    (updateSession s w).1.Bytes = 0 := by
  unfold updateSession getUser
  simp only [World.emit]
  split
  · rename_i u h
    have hu : u.Id = s.User.Id := by simpa using List.find?_some h
    simp [hu]
  · simp

theorem updateConnUsed_fields (s : session) (w : World) (val : Int) :
    (updateConnUsed s w val).1.Session.Id = s.Session.Id ∧
    (updateConnUsed s w val).1.User.Id = s.User.Id ∧
    (updateConnUsed s w val).1.Bytes = s.Bytes := ⟨rfl, rfl, rfl⟩

theorem storedBytes_updateConnUsed (s : session) (w : World) (val id : Int) :
    storedBytes (updateConnUsed s w val).2.db id = storedBytes w.db id := rfl

theorem storedAllowanceUsed_updateConnUsed (s : session) (w : World) (val id : Int) :
    storedAllowanceUsed (updateConnUsed s w val).2.db id = storedAllowanceUsed w.db id := by
  unfold storedAllowanceUsed updateConnUsed
  simp only [World.emit]
  rw [find?_map_preserving _ _ _ (by intro x; split_ifs <;> rfl)]
  cases h : List.find? (fun u => decide (u.Id = id)) w.db.users with
  | none => simp
  | some r => by_cases hid : r.Id = s.User.Id <;> simp [hid]

/-- Bytes copied in a concatenated trace. -/
theorem copiedIn_append (xs ys : List Event) :
    copiedIn (xs ++ ys) = copiedIn xs + copiedIn ys := by
  induction xs with
  | nil => simp [copiedIn]
  | cons x xs ih => cases x <;> simp [copiedIn, ih, Nat.add_assoc]

/-- A reset occurs in a concatenated trace iff it occurs in one of the parts. -/
theorem resetIn_append (xs ys : List Event) :
    resetIn (xs ++ ys) = (resetIn xs || resetIn ys) := by
  induction xs with
  | nil => simp [resetIn]
  | cons x xs ih => cases x <;> simp [resetIn, ih]

/-- A step that keeps the identifiers, the accumulator, the stored columns and the bytes
copied keeps the bookkeeping relation. -/
theorem accounted_frame {sid uid kb ka b0 : Int} {s s1 : session} {w w1 : World}
    (h : Accounted sid uid kb ka b0 s w)
    (hs : s1.Session.Id = s.Session.Id) (hu : s1.User.Id = s.User.Id)
    (hb : s1.Bytes = s.Bytes)
    (hdb : storedBytes w1.db sid = storedBytes w.db sid)
    (hc : copiedIn w1.trace = copiedIn w.trace)
    (hr : resetIn w1.trace = false →
      resetIn w.trace = false ∧
        storedAllowanceUsed w1.db uid = storedAllowanceUsed w.db uid) :
    Accounted sid uid kb ka b0 s1 w1 := by
  obtain ⟨h1, h2, h3, h4, h5⟩ := h
  refine ⟨by rw [hs, h1], by rw [hu, h2], by rw [hb]; exact h3, ?_, ?_⟩
  · rw [hdb, hb, hc]; exact h4
  · intro hno
    obtain ⟨hr1, hr2⟩ := hr hno
    rw [hr2, hb, hc]
    exact h5 hr1

/-- The calls `updateSession` makes on the store. -/
theorem updateSession_trace (s : session) (w : World) :
    (updateSession s w).2.trace =
      w.trace ++ [.dbAddSessionBytes s.Session.Id s.Bytes,
        .dbAddAllowanceUsed s.User.Id s.Bytes, .dbGetUserById s.User.Id] := by
  unfold updateSession getUser
  simp only [World.emit]
  split <;> simp

/-- A flush does not read from the client. -/
theorem updateSession_input (s : session) (w : World) :
    (updateSession s w).2.input = w.input := by
  unfold updateSession getUser
  simp only [World.emit]
  split <;> rfl

/-- A flush (lines 446-468) keeps the bookkeeping relation. -/
theorem updateSession_accounted {sid uid kb ka b0 : Int} {s : session} {w : World}
    (h : Accounted sid uid kb ka b0 s w) :
    Accounted sid uid kb ka b0 (updateSession s w).1 (updateSession s w).2 := by
  obtain ⟨h1, h2, h3, ⟨b, h4, h4b, h4c⟩, h5⟩ := h
  obtain ⟨f1, f2, f3⟩ := updateSession_fields s w
  have hc : copiedIn (updateSession s w).2.trace = copiedIn w.trace := by
    rw [updateSession_trace, copiedIn_append]; simp [copiedIn]
  have hr : resetIn (updateSession s w).2.trace = resetIn w.trace := by
    rw [updateSession_trace, resetIn_append]; simp [resetIn]
  refine ⟨by rw [f1, h1], by rw [f2, h2], by rw [f3], ⟨b + s.Bytes, ?_, by omega, ?_⟩, ?_⟩
  · rw [storedBytes_updateSession, h4]; simp [h1]
  · rw [f3, hc]; omega
  · intro hno
    rw [hr] at hno
    obtain ⟨a, ha, hac⟩ := h5 hno
    refine ⟨a + s.Bytes, ?_, ?_⟩
    · rw [storedAllowanceUsed_updateSession, ha]; simp [h2]
    · rw [f3, hc]; omega

/-- Lines 215-222 keep the bookkeeping relation and do not grow the accumulator. -/
theorem countOrFlush_accounted {sid uid kb ka b0 : Int} {s : session} {w : World}
    (h : Accounted sid uid kb ka b0 s w) :
    Accounted sid uid kb ka b0 (countOrFlush s w).1 (countOrFlush s w).2 ∧
    (countOrFlush s w).1.Bytes ≤ s.Bytes ∧ (countOrFlush s w).2.input = w.input := by
  unfold countOrFlush
  split
  · exact ⟨accounted_frame h rfl rfl rfl rfl rfl (fun hno => ⟨hno, rfl⟩), le_refl _, rfl⟩
  · refine ⟨updateSession_accounted h, ?_, updateSession_input s w⟩
    rw [(updateSession_fields s w).2.2]
    exact h.2.2.1

/-- An allowance reset keeps the relation for the session row; the one for the user row
no longer binds, as the trace then records the reset. -/
theorem resetAllowance_accounted {sid uid kb ka b0 : Int} (env : Env) {s : session}
    {w : World} (h : Accounted sid uid kb ka b0 s w) :
    Accounted sid uid kb ka b0 (resetAllowance env s w).1 (resetAllowance env s w).2 := by
  refine accounted_frame h rfl rfl rfl rfl ?_ ?_
  · simp [resetAllowance, World.emit, copiedIn_append, copiedIn]
  · intro hno
    simp [resetAllowance, World.emit, resetIn_append, resetIn] at hno

/-- The quota re-check (lines 224-232) keeps the bookkeeping relation. -/
theorem quotaRecheck_accounted {sid uid kb ka b0 : Int} (env : Env) {s : session}
    {w : World} (h : Accounted sid uid kb ka b0 s w) :
    Accounted sid uid kb ka b0 (quotaRecheck env s w).2.1 (quotaRecheck env s w).2.2 ∧
    (quotaRecheck env s w).2.1.Bytes = s.Bytes ∧ (quotaRecheck env s w).2.2.input = w.input := by
  unfold quotaRecheck
  split
  · split
    · exact ⟨resetAllowance_accounted env h, rfl, rfl⟩
    · refine ⟨accounted_frame h rfl rfl rfl rfl ?_ ?_, rfl, rfl⟩
      · simp [Close, PrintfLine, World.emit, copiedIn_append, copiedIn]
      · intro hno
        simp [Close, PrintfLine, World.emit, resetIn_append, resetIn] at hno
        exact ⟨hno, rfl⟩
  · exact ⟨h, rfl, rfl⟩

/-- The connection counter is a different column: `updateConnUsed` keeps the relation. -/
theorem updateConnUsed_accounted {sid uid kb ka b0 : Int} {s : session} {w : World}
    (val : Int) (h : Accounted sid uid kb ka b0 s w) :
    Accounted sid uid kb ka b0 (updateConnUsed s w val).1 (updateConnUsed s w val).2 := by
  refine accounted_frame h rfl rfl rfl (storedBytes_updateConnUsed s w val sid) ?_ ?_
  · simp [updateConnUsed, World.emit, copiedIn_append, copiedIn]
  · intro hno
    simp [updateConnUsed, World.emit, resetIn_append, resetIn] at hno
    exact ⟨hno, storedAllowanceUsed_updateConnUsed s w val uid⟩

/-- `closeSession` (lines 470-473) keeps the relation and empties the accumulator. -/
theorem closeSession_accounted {sid uid kb ka b0 : Int} {s : session} {w : World}
    (h : Accounted sid uid kb ka b0 s w) :
    Accounted sid uid kb ka b0 (closeSession s w).1 (closeSession s w).2 ∧
    (closeSession s w).1.Bytes = 0 := by
  unfold closeSession
  exact ⟨updateSession_accounted (updateConnUsed_accounted (-1) h),
    (updateSession_fields _ _).2.2⟩

/-- A `Return` that does not block touches only the pool and the trace. -/
theorem poolReturn_ok {w w1 : World} {conn : Option Nat}
    (h : poolReturn w conn = .ok w1) :
    w1.db = w.db ∧ w1.input = w.input ∧ w1.trace = w.trace ++ [.poolReturn conn] := by
  unfold poolReturn at h
  split at h
  · simp only [Except.ok.injEq] at h
    subst h
    exact ⟨rfl, rfl, rfl⟩
  · simp at h

/-- The deferred reset of `RequestsSinceUpdaate` (lines 219-221) changes nothing the
bookkeeping relation looks at. -/
theorem deferred_good {sid uid kb ka b0 : Int} (flag : Bool) (input : List String)
    (r : session × World × List Attempt)
    (h : Accounted sid uid kb ka b0 r.1 r.2.1 ∧ r.1.Bytes + (bodySum r.2.2 : Int) < 2 ^ 63 ∧
      r.2.1.input = input) :
    Accounted sid uid kb ka b0
        (if flag = true then (({ r.1 with RequestsSinceUpdaate := 0 } : session), r.2) else r).1
        (if flag = true then (({ r.1 with RequestsSinceUpdaate := 0 } : session), r.2) else r).2.1 ∧
      (if flag = true then (({ r.1 with RequestsSinceUpdaate := 0 } : session), r.2) else r).1.Bytes +
        (bodySum
          (if flag = true then (({ r.1 with RequestsSinceUpdaate := 0 } : session), r.2)
            else r).2.2 : Int) < 2 ^ 63 ∧
      (if flag = true then (({ r.1 with RequestsSinceUpdaate := 0 } : session), r.2)
        else r).2.1.input = input := by
  cases flag
  · simpa using h
  · obtain ⟨h1, h2, h3⟩ := h
    exact ⟨accounted_frame h1 rfl rfl rfl rfl rfl (fun hno => ⟨hno, rfl⟩), h2, h3⟩

/-- Inversion of a `do` step that returned normally. -/
theorem bind_ok_inv {α β : Type} {x : Except Halt α} {f : α → Except Halt β} {y : β}
    (h : (x >>= f) = .ok y) : ∃ a, x = .ok a ∧ f a = .ok y := by
  cases x with
  | error e => simp [bind, Except.bind] at h
  | ok a => exact ⟨a, rfl, h⟩

/-- Events appended to the trace that copy `n` bytes, with the accumulator grown by `n`
and the store untouched, keep the bookkeeping relation. -/
theorem accounted_extend {sid uid kb ka b0 : Int} {s s1 : session} {w w1 : World}
    (evs : List Event) (n : Nat)
    (h : Accounted sid uid kb ka b0 s w)
    (hs : s1.Session.Id = s.Session.Id) (hu : s1.User.Id = s.User.Id)
    (hb : s1.Bytes = s.Bytes + n)
    (hdb : w1.db = w.db) (htr : w1.trace = w.trace ++ evs)
    (hc : copiedIn evs = n) (hr : resetIn evs = false) :
    Accounted sid uid kb ka b0 s1 w1 := by
  obtain ⟨h1, h2, h3, ⟨b, h4, h4b, h4c⟩, h5⟩ := h
  refine ⟨by rw [hs, h1], by rw [hu, h2], by rw [hb]; omega, ⟨b, by rw [hdb]; exact h4, h4b, ?_⟩, ?_⟩
  · rw [hb, htr, copiedIn_append, hc]; push_cast; omega
  · intro hno
    rw [htr, resetIn_append, hr, Bool.or_false] at hno
    obtain ⟨a, ha, hac⟩ := h5 hno
    refine ⟨a, by rw [hdb]; exact ha, ?_⟩
    rw [hb, htr, copiedIn_append, hc]; push_cast; omega

/-- Every pass of `handleRequests` (lines 213-290) that returns keeps the bookkeeping
relation, the bound on the accumulator, and the pending client input. -/
theorem handleRequests_accounted (env : Env) {sid uid kb ka b0 : Int} :
    ∀ (atts : List Attempt) (s : session) (w : World) (r : session × World × List Attempt),
      handleRequests env atts s w = .ok r →
      Accounted sid uid kb ka b0 s w →
      s.Bytes + (bodySum atts : Int) < 2 ^ 63 →
      Accounted sid uid kb ka b0 r.1 r.2.1 ∧
        r.1.Bytes + (bodySum r.2.2 : Int) < 2 ^ 63 ∧ r.2.1.input = w.input := by
  intro atts
  induction atts with
  | nil => intro s w r h; simp [handleRequests] at h
  | cons a rest ih =>
    intro s w r h hacc hfit
    obtain ⟨hc1, hc2, hc3⟩ := countOrFlush_accounted hacc
    obtain ⟨hq1, hq2, hq3⟩ := quotaRecheck_accounted env hc1
    rw [handleRequests] at h
    simp only [] at h
    generalize quotaRecheck env (countOrFlush s w).1 (countOrFlush s w).2 = q at h hq1 hq2 hq3
    generalize (decide ¬s.RequestsSinceUpdaate < 10) = flag at h
    have hin : q.2.2.input = w.input := hq3.trans hc3
    have hb0 : 0 ≤ q.2.1.Bytes := hq1.2.2.1
    have hfitq : q.2.1.Bytes + (a.body : Int) + (bodySum rest : Int) < 2 ^ 63 := by
      simp only [bodySum] at hfit; push_cast at hfit; omega
    have hretry : ∀ (w2 : World) (r1 : session × World × List Attempt) (evs : List Event),
        w2.db = q.2.2.db → w2.input = q.2.2.input → w2.trace = q.2.2.trace ++ evs →
        copiedIn evs = 0 → resetIn evs = false →
        handleRequests env rest q.2.1 w2 = .ok r1 →
        Accounted sid uid kb ka b0 r1.1 r1.2.1 ∧
          r1.1.Bytes + (bodySum r1.2.2 : Int) < 2 ^ 63 ∧ r1.2.1.input = w.input := by
      intro w2 r1 evs hdb hinp htr hcz hrz hr1
      have hacc2 : Accounted sid uid kb ka b0 q.2.1 w2 :=
        accounted_extend evs 0 hq1 rfl rfl (by simp) hdb htr hcz hrz
      obtain ⟨g1, g2, g3⟩ := ih q.2.1 w2 r1 hr1 hacc2 (by omega)
      exact ⟨g1, g2, by rw [g3, hinp, hin]⟩
    split at h
    · simp only [Except.ok.injEq] at h
      subst h
      refine deferred_good flag w.input _ ⟨hq1, ?_, hin⟩
      simp only [bodySum]; push_cast; omega
    · split at h
      · cases h
      · obtain ⟨w2, hw2, h⟩ := bind_ok_inv h
        obtain ⟨r1, hr1, h⟩ := bind_ok_inv h
        simp only [Except.ok.injEq] at h
        subst h
        obtain ⟨p1, p2, p3⟩ := poolReturn_ok hw2
        exact deferred_good flag w.input r1
          (hretry w2 r1 [.poolGet, .poolReturn none] p1 p2
            (by rw [p3]; simp [World.emit]) rfl rfl hr1)
      · rename_i conn hget
        split at h
        · obtain ⟨w2, hw2, h⟩ := bind_ok_inv h
          obtain ⟨r1, hr1, h⟩ := bind_ok_inv h
          simp only [Except.ok.injEq] at h
          subst h
          obtain ⟨p1, p2, p3⟩ := poolReturn_ok hw2
          exact deferred_good flag w.input r1
            (hretry w2 r1 [.poolGet, .upstreamPrintfLine conn q.2.1.command, .poolReturn none]
              p1 p2 (by rw [p3]; simp [World.emit]) rfl rfl hr1)
        · split at h
          · obtain ⟨w2, hw2, h⟩ := bind_ok_inv h
            obtain ⟨r1, hr1, h⟩ := bind_ok_inv h
            simp only [Except.ok.injEq] at h
            subst h
            obtain ⟨p1, p2, p3⟩ := poolReturn_ok hw2
            exact deferred_good flag w.input r1
              (hretry w2 r1 [.poolGet, .upstreamPrintfLine conn q.2.1.command,
                  .upstreamReadCodeLine conn, .upstreamClose conn, .poolReturn none]
                p1 p2 (by rw [p3]; simp [World.emit, PrintfLine]) rfl rfl hr1)
          · rename_i id msg hread
            obtain ⟨w5, hw5, h⟩ := bind_ok_inv h
            simp only [Except.ok.injEq] at h
            subst h
            obtain ⟨p1, p2, p3⟩ := poolReturn_ok hw5
            refine deferred_good flag w.input _ ⟨?_, ?_, ?_⟩
            · exact accounted_extend
                [.poolGet, .upstreamPrintfLine conn q.2.1.command, .upstreamReadCodeLine conn,
                  .printfLine (fmtS (.int id) ++ " " ++ fmtS (.str msg)), .poolReturn (some conn)]
                0 hq1 rfl rfl (by simp) p1 (by rw [p3]; simp [World.emit, PrintfLine]) rfl rfl
            · show q.2.1.Bytes + (bodySum rest : Int) < 2 ^ 63
              omega
            · show w5.input = w.input
              rw [p2]; exact hin
          · rename_i msg hread
            split at h
            · cases h
            · rename_i p1s hidx
              obtain ⟨w6, hw6, h⟩ := bind_ok_inv h
              simp only [Except.ok.injEq] at h
              subst h
              obtain ⟨p1, p2, p3⟩ := poolReturn_ok hw6
              have hg : goInt (q.2.1.Bytes + (a.body : Int)) = q.2.1.Bytes + (a.body : Int) :=
                goInt_of_range _ (by omega) (by omega)
              refine deferred_good flag w.input _ ⟨?_, ?_, ?_⟩
              · exact accounted_extend
                  [.poolGet, .upstreamPrintfLine conn q.2.1.command, .upstreamReadCodeLine conn,
                    .printfLine ("220 1 " ++ fmtS (.str p1s)), .dotCopy a.body,
                    .poolReturn (some conn)]
                  a.body hq1 rfl rfl hg p1 (by rw [p3]; simp [World.emit, PrintfLine])
                  (by simp [copiedIn]) rfl
              · show goInt (q.2.1.Bytes + (a.body : Int)) + (bodySum rest : Int) < 2 ^ 63
                rw [hg]; omega
              · show w6.input = w.input
                rw [p2]; exact hin

/-- The same for `dispatchCommand` on a line whose token is not `authinfo`. -/
theorem dispatchCommand_accounted (env : Env) {sid uid kb ka b0 : Int}
    (atts : List Attempt) (s : session) (w : World) (r : session × World × List Attempt)
    (hcmd : env.ToLower ((Split s.command).headD "") ≠ "authinfo")
    (h : dispatchCommand env atts s w = .ok r)
    (hacc : Accounted sid uid kb ka b0 s w)
    (hfit : s.Bytes + (bodySum atts : Int) < 2 ^ 63) :
    Accounted sid uid kb ka b0 r.1 r.2.1 ∧
      r.1.Bytes + (bodySum r.2.2 : Int) < 2 ^ 63 ∧ r.2.1.input = w.input := by
  obtain ⟨t, cs, hsplit⟩ := Split_head s.command
  rw [hsplit] at hcmd
  simp only [List.headD_cons] at hcmd
  by_cases hallowed : isCommandAllowed env (env.ToLower t) = true
  · rw [dispatchCommand_allowed env atts s w t cs hsplit hcmd hallowed] at h
    exact handleRequests_accounted env atts s w r h hacc hfit
  · simp [dispatchCommand, hsplit, index, hcmd, hallowed, bind, Except.bind] at h
    subst h
    exact ⟨accounted_extend [.printfLine ("502 " ++ fmtS (.str t) ++ " not allowed")] 0 hacc
      rfl rfl (by simp) rfl rfl rfl rfl, hfit, rfl⟩

/-- The same for the session loop, which ends with `closeSession`. -/
theorem serve_accounted (env : Env) {sid uid kb ka b0 : Int} :
    ∀ (fuel : Nat) (atts : List Attempt) (s : session) (w : World) (r : session × World),
      (∀ l ∈ w.input, env.ToLower ((Split l).headD "") ≠ "authinfo") →
      serve env fuel atts s w = .ok r →
      Accounted sid uid kb ka b0 s w →
      s.Bytes + (bodySum atts : Int) < 2 ^ 63 →
      Accounted sid uid kb ka b0 r.1 r.2 ∧ r.1.Bytes = 0 := by
  intro fuel
  induction fuel with
  | zero => intro atts s w r _ h; simp [serve] at h
  | succ fuel ih =>
    intro atts s w r hlines h hacc hfit
    rw [serve] at h
    split at h
    · simp only [Except.ok.injEq] at h
      subst h
      obtain ⟨c1, c2⟩ := closeSession_accounted hacc
      exact ⟨accounted_extend [.close] 0 c1 rfl rfl (by simp) rfl rfl rfl rfl, c2⟩
    · rename_i hopen
      have hclosed : w.closed = false := by
        cases hc : w.closed
        · rfl
        · exact absurd (Or.inl hc) hopen
      cases hin : w.input with
      | nil => exact absurd (Or.inr hin) hopen
      | cons l rest =>
        have hrd : ReadLine w = (l, { w with input := rest }) := by
          simp [ReadLine, hclosed, hin]
        rw [hrd] at h
        simp only [] at h
        split at h
        · cases h
        · rename_i r1 hd
          have hl : env.ToLower ((Split l).headD "") ≠ "authinfo" :=
            hlines l (by rw [hin]; exact List.mem_cons_self _ _)
          have hacc1 : Accounted sid uid kb ka b0 { s with command := l }
              { w with input := rest } :=
            accounted_extend [] 0 hacc rfl rfl (by simp) rfl (by simp) rfl rfl
          obtain ⟨g1, g2, g3⟩ :=
            dispatchCommand_accounted env atts { s with command := l } { w with input := rest }
              r1 hl hd hacc1 hfit
          refine ih r1.2.2 r1.1 r1.2.1 r ?_ h g1 g2
          intro l2 hl2
          rw [g3] at hl2
          exact hlines l2 (by rw [hin]; exact List.mem_cons_of_mem _ hl2)

/-- The bookkeeping relation holds initially for the constants read off the start state. -/
theorem accounted_start {s : session} {w : World} {b0 a0 : Int}
    (hbytes : 0 ≤ s.Bytes)
    (hrow : storedBytes w.db s.Session.Id = some b0)
    (huser : storedAllowanceUsed w.db s.User.Id = some a0) :
    Accounted s.Session.Id s.User.Id (b0 + s.Bytes - copiedIn w.trace)
      (a0 + s.Bytes - copiedIn w.trace) b0 s w :=
  ⟨rfl, rfl, hbytes, ⟨b0, hrow, le_refl _, by omega⟩, fun _ => ⟨a0, huser, by omega⟩⟩

/-- C10, counterexample: `alice` (allowance 1000, 400 used, renewal date 500) is admitted
at time 600 and fetches eleven articles, ten of 70 bytes and one of 5. The eleventh
request flushes 700 bytes (`allowance_used` 1100), the quota re-check that follows finds
1100 > 1000 past the renewal date and resets `allowance_used` to 0, and `closeSession`
flushes the last 5 bytes. The body copies returned 705 bytes and the session row holds
705, but `allowance_used` went from 400 to 5, not to 1105. -/
theorem allowance_reset_breaks_accounting :
    (handleRequest exampleEnv 14
      (List.replicate 10 ⟨some 1, true, .line "220 0 <1@x>", 70⟩ ++
        [⟨some 1, true, .line "220 0 <1@x>", 5⟩])
      { (startWorld [alice] (["AUTHINFO USER alice", "AUTHINFO PASS secret"] ++
          List.replicate 11 "ARTICLE <1@x>")) with now := 600 }).toOption.map
      (fun r => (copiedIn r.2.trace, storedBytes r.2.db 1, storedAllowanceUsed r.2.db 7)) =
    some (705, some 705, some 5) := by
  decide

/-- C10, amended: `updateSession` adds the accumulator `s.Bytes` to the `bytes` of the
session row and the same amount to the `allowanceused` of the user row, and leaves the
accumulator at 0. For a session state whose rows exist, with a non-negative accumulator
and fewer than `2^63` bytes still to be delivered: every pass of `handleRequests` that
returns leaves the session row no smaller, with row plus accumulator grown by the bytes
the body copies returned; every run of the session loop on command lines (no `authinfo`)
that ends with `closeSession` leaves the accumulator at 0 and the session row grown by
exactly the bytes copied; and the user's `allowanceused` has grown by the same amount
provided no `resetAllowance` ran (the trace records none). -/
theorem updateSession_accounting (env : Env) (atts : List Attempt) (s : session) (w : World)
    (b0 a0 : Int)
    (hbytes : 0 ≤ s.Bytes)
    (hrow : storedBytes w.db s.Session.Id = some b0)
    (huser : storedAllowanceUsed w.db s.User.Id = some a0)
    (hfit : s.Bytes + (bodySum atts : Int) < 2 ^ 63) :
    (∀ (s1 : session) (w1 : World),
      storedBytes (updateSession s1 w1).2.db s1.Session.Id =
        (storedBytes w1.db s1.Session.Id).map (fun b => b + s1.Bytes) ∧
      storedAllowanceUsed (updateSession s1 w1).2.db s1.User.Id =
        (storedAllowanceUsed w1.db s1.User.Id).map (fun a => a + s1.Bytes) ∧
      (updateSession s1 w1).1.Bytes = 0) ∧
    (∀ r : session × World × List Attempt, handleRequests env atts s w = .ok r →
      ∃ b1 : Int, storedBytes r.2.1.db s.Session.Id = some b1 ∧ b0 ≤ b1 ∧
        b1 + r.1.Bytes + copiedIn w.trace = b0 + s.Bytes + copiedIn r.2.1.trace ∧
        (resetIn r.2.1.trace = false →
          ∃ a1 : Int, storedAllowanceUsed r.2.1.db s.User.Id = some a1 ∧
            a1 + r.1.Bytes + copiedIn w.trace = a0 + s.Bytes + copiedIn r.2.1.trace)) ∧
    (∀ (fuel : Nat) (r : session × World),
      (∀ l ∈ w.input, env.ToLower ((Split l).headD "") ≠ "authinfo") →
      serve env fuel atts s w = .ok r →
      r.1.Bytes = 0 ∧
      storedBytes r.2.db s.Session.Id =
        some (b0 + s.Bytes + copiedIn r.2.trace - copiedIn w.trace) ∧
      b0 ≤ b0 + s.Bytes + copiedIn r.2.trace - copiedIn w.trace ∧
      (resetIn r.2.trace = false →
        storedAllowanceUsed r.2.db s.User.Id =
          some (a0 + s.Bytes + copiedIn r.2.trace - copiedIn w.trace))) := by
  have hstart := accounted_start hbytes hrow huser
  refine ⟨?_, ?_, ?_⟩
  · intro s1 w1
    refine ⟨?_, ?_, (updateSession_fields s1 w1).2.2⟩
    · rw [storedBytes_updateSession]; simp
    · rw [storedAllowanceUsed_updateSession]; simp
  · intro r hr
    obtain ⟨⟨_, _, _, ⟨b1, g1, g2, g3⟩, g4⟩, _, _⟩ :=
      handleRequests_accounted env atts s w r hr hstart hfit
    refine ⟨b1, g1, g2, by omega, ?_⟩
    intro hno
    obtain ⟨a1, g5, g6⟩ := g4 hno
    exact ⟨a1, g5, by omega⟩
  · intro fuel r hlines hr
    obtain ⟨⟨_, _, _, ⟨b1, g1, g2, g3⟩, g4⟩, hzero⟩ :=
      serve_accounted env fuel atts s w r hlines hr hstart hfit
    rw [hzero] at g3 g4
    refine ⟨hzero, ?_, by omega, ?_⟩
    · rw [g1]; congr 1; omega
    · intro hno
      obtain ⟨a1, g5, g6⟩ := g4 hno
      rw [g5]; congr 1; omega

/-- Witness of the amended C10: `alice` with 400 bytes used fetches articles of 5 and 7
bytes and disconnects: session row 12, `allowanceused` 412. -/
theorem updateSession_accounting_witness :
    storedBytes ((serve exampleEnv 3
        [⟨some 1, true, .line "220 0 <1@x>", 5⟩, ⟨some 1, true, .line "220 0 <2@x>", 7⟩]
        aliceSession
        { aliceWorld with input := ["ARTICLE <1@x>", "ARTICLE <2@x>"] }).toOption.getD
          (aliceSession, aliceWorld)).2.db 1 = some 12 ∧
    storedAllowanceUsed ((serve exampleEnv 3
        [⟨some 1, true, .line "220 0 <1@x>", 5⟩, ⟨some 1, true, .line "220 0 <2@x>", 7⟩]
        aliceSession
        { aliceWorld with input := ["ARTICLE <1@x>", "ARTICLE <2@x>"] }).toOption.getD
          (aliceSession, aliceWorld)).2.db 7 = some 412 :=
  ⟨((updateSession_accounting exampleEnv
      [⟨some 1, true, .line "220 0 <1@x>", 5⟩, ⟨some 1, true, .line "220 0 <2@x>", 7⟩]
      aliceSession { aliceWorld with input := ["ARTICLE <1@x>", "ARTICLE <2@x>"] } 0 400
      (by decide) (by decide) (by decide) (by decide)).2.2 3 _ (by decide) rfl).2.1,
   ((updateSession_accounting exampleEnv
      [⟨some 1, true, .line "220 0 <1@x>", 5⟩, ⟨some 1, true, .line "220 0 <2@x>", 7⟩]
      aliceSession { aliceWorld with input := ["ARTICLE <1@x>", "ARTICLE <2@x>"] } 0 400
      (by decide) (by decide) (by decide) (by decide)).2.2 3 _ (by decide) rfl).2.2.2 (by decide)⟩

/-! ## C11: the allow-list decision -/

/-- ASCII lower-casing of a character is idempotent. -/
theorem toLower_toLower_char (c : Char) : c.toLower.toLower = c.toLower := by
  by_cases h : c.toNat ≥ 65 ∧ c.toNat ≤ 90
  · have hc : Char.ofNat c.toNat = c := Char.ofNat_toNat c
    generalize c.toNat = n at h hc
    subst hc
    obtain ⟨h1, h2⟩ := h
    interval_cases n <;> decide
  · have h2 : c.toLower = c := by simp [Char.toLower, h]
    rw [h2, h2]

/-- ASCII lower-casing of a string is idempotent. -/
theorem asciiLower_idem (s : String) : asciiLower (asciiLower s) = asciiLower s := by
  simp [asciiLower, List.map_map, Function.comp_def, toLower_toLower_char]

/-- Lines 58-65 as a membership statement. -/
theorem isCommandAllowed_iff (env : Env) (t : String) :
    isCommandAllowed env t = true ↔
      ∃ e ∈ env.FrontendAllowedCommands, env.ToLower e = env.ToLower t := by
  simp [isCommandAllowed, List.any_eq_true]

/-- The decision depends on the entries and on the token only through their lower-cased
forms. -/
theorem isCommandAllowed_congr (env : Env) (entries2 : List String) (t t2 : String)
    (hentries : entries2.map env.ToLower = env.FrontendAllowedCommands.map env.ToLower)
    (ht : env.ToLower t2 = env.ToLower t) :
    isCommandAllowed { env with FrontendAllowedCommands := entries2 } t2 =
      isCommandAllowed env t := by
  have key : ∀ (l : List String) (x : String),
      l.any (fun elem => decide (env.ToLower elem = x)) =
        (l.map env.ToLower).any (fun y => decide (y = x)) := by
    intro l x
    simp [List.any_map, Function.comp_def]
  unfold isCommandAllowed
  simp only []
  rw [key, key, hentries, ht]

/-- C11: for a received line with first space-separated token `t` that does not lower-case
to `authinfo`. `isCommandAllowed(t)` is true iff some allow-list entry has the same
lower-cased form as `t`; the decision is the same for every token and every allow-list
with the same lower-cased forms, and the same for the lower-cased token that
`dispatchCommand` passes (line 201); when it is false `dispatchCommand` returns having only
written `502 t not allowed`, with `t` as received: session record, store, cache, pool and
the open connection are unchanged. `strings.ToLower` is taken idempotent (lower-casing a
lower-cased string changes nothing), as the Go function is. -/
theorem isCommandAllowed_case_insensitive (env : Env) (atts : List Attempt) (s : session)
    (w : World) (t : String) (cs : List String)
    (hlower : ∀ x, env.ToLower (env.ToLower x) = env.ToLower x)
    (hsplit : Split s.command = t :: cs)
    (hcmd : env.ToLower t ≠ "authinfo") :
    (isCommandAllowed env t = true ↔
      ∃ e ∈ env.FrontendAllowedCommands, env.ToLower e = env.ToLower t) ∧
    (∀ (entries2 : List String) (t2 : String),
      entries2.map env.ToLower = env.FrontendAllowedCommands.map env.ToLower →
      env.ToLower t2 = env.ToLower t →
      isCommandAllowed { env with FrontendAllowedCommands := entries2 } t2 =
        isCommandAllowed env t) ∧
    isCommandAllowed env (env.ToLower t) = isCommandAllowed env t ∧
    (isCommandAllowed env t = false →
      dispatchCommand env atts s w =
        .ok (s, { w with
          trace := w.trace ++ [.printfLine ("502 " ++ t ++ " not allowed")] }, atts)) := by
  have hl : isCommandAllowed env (env.ToLower t) = isCommandAllowed env t :=
    isCommandAllowed_congr env env.FrontendAllowedCommands t (env.ToLower t) rfl (hlower t)
  refine ⟨isCommandAllowed_iff env t, ?_, hl, ?_⟩
  · intro entries2 t2 he ht
    exact isCommandAllowed_congr env entries2 t t2 he ht
  · intro hfalse
    rw [← hl] at hfalse
    simp [dispatchCommand, hsplit, index, hcmd, hfalse, bind, Except.bind, PrintfLine,
      World.emit, fmtS]

/-- Witness of C11: allow-list `article`, `body` and the line `POST foo`. -/
theorem isCommandAllowed_case_insensitive_witness :
    isCommandAllowed exampleEnv "post" = isCommandAllowed exampleEnv "POST" ∧
    dispatchCommand exampleEnv [] { freshSession with command := "POST foo" }
        (startWorld [] []) =
      .ok ({ freshSession with command := "POST foo" },
        { (startWorld [] []) with trace := [.printfLine "502 POST not allowed"] }, []) :=
  ⟨(isCommandAllowed_case_insensitive exampleEnv [] { freshSession with command := "POST foo" }
      (startWorld [] []) "POST" ["foo"] asciiLower_idem (by decide) (by decide)).2.1
      ["article", "body"] "post" rfl (by decide),
   (isCommandAllowed_case_insensitive exampleEnv [] { freshSession with command := "POST foo" }
      (startWorld [] []) "POST" ["foo"] asciiLower_idem (by decide) (by decide)).2.2.2
      (by decide)⟩

end NntpProxy
